import Mathlib

/-!
Verification development for the JD Automation System frontend
(pipeline run engine).  The definitions below are a shallow embedding of
the client-side run controller: the step registry, the fallback content
builders, the SSE event handler, the legacy simulated path, the
review-gate controller, and the dashboard aggregation.  JavaScript
numbers are modelled as exact rationals, JavaScript strings as Lean
strings, and absent object fields as `Option`.  All functions are total;
a JavaScript call that can throw is modelled by an `Option`-valued
oracle in the environment record (`none` standing for a thrown error).
-/

namespace JD

/-! ## JavaScript value helpers

JavaScript truthiness for strings and the loose `+` operator, needed
because the dashboard accumulates `elapsedTime` values that the run
paths store as strings produced by `toFixed(1)`. -/

/-- Truthiness of a possibly-absent JavaScript string: `undefined` and
the empty string are falsy. -/
def jsTruthyS (o : Option String) : Bool :=
  match o with
  | some s => s ≠ ""
  | none => false

/-- A JavaScript value that is either a number or a string, the two
shapes that can reach the dashboard accumulator. -/
inductive JVal where
  | num (q : ℚ)
  | str (s : String)
deriving DecidableEq

/-- Rendering of a number as a string under string concatenation.  Only
integer values ever reach a concatenation in the modelled code (the
accumulator is the literal `0`), and for integers this agrees with
JavaScript `ToString`. -/
def jsNumToString (q : ℚ) : String :=
  if q.den = 1 then toString q.num else toString q

def jsValToString : JVal → String
  | JVal.num q => jsNumToString q
  | JVal.str s => s

/-- JavaScript `+`: numeric addition on two numbers, string
concatenation as soon as either side is a string. -/
def jsAdd : JVal → JVal → JVal
  | JVal.num a, JVal.num b => JVal.num (a + b)
  | a, b => JVal.str (jsValToString a ++ jsValToString b)

/-- JavaScript `String.prototype.trim` on a character list: drop
leading and trailing whitespace. -/
def jsTrimList (cs : List Char) : List Char :=
  ((cs.dropWhile Char.isWhitespace).reverse.dropWhile Char.isWhitespace).reverse

/-- JavaScript `String.prototype.trim`. -/
def jsTrim (s : String) : String :=
  String.mk (jsTrimList s.toList)

/-- Split a character list at every occurrence of a separator
character, the shape of `split` with a one-character separator. -/
def splitOnChar (sep : Char) : List Char → List (List Char)
  | [] => [[]]
  | c :: cs =>
      match splitOnChar sep cs with
      | [] => if c = sep then [[], []] else [[c]]
      | h :: t => if c = sep then [] :: h :: t else (c :: h) :: t

/-- Numeric value of a digit character list. -/
def natOfDigits (cs : List Char) : ℕ :=
  cs.foldl (fun n c => n * 10 + (c.toNat - Char.toNat '0')) 0

/-- JavaScript `ToNumber` on a string, restricted to plain decimal
literals (optional sign, digits, at most one dot), which covers every
string the modelled code can produce.  `none` models `NaN`. -/
def jsStringToNumber (s : String) : Option ℚ :=
  let t := jsTrimList s.toList
  if t = [] then some 0
  else
    let signBody : ℚ × List Char :=
      match t with
      | '-' :: rest => (-1, rest)
      | '+' :: rest => (1, rest)
      | _ => (1, t)
    match splitOnChar '.' signBody.2 with
    | [intPart] =>
        if intPart ≠ [] ∧ intPart.all Char.isDigit then
          some (signBody.1 * natOfDigits intPart)
        else none
    | [intPart, fracPart] =>
        if (intPart ≠ [] ∨ fracPart ≠ []) ∧ intPart.all Char.isDigit
            ∧ fracPart.all Char.isDigit then
          some (signBody.1 * (natOfDigits intPart
            + (natOfDigits fracPart : ℚ) / (10 : ℚ) ^ fracPart.length))
        else none
    | _ => none

/-- JavaScript `ToNumber` on a model value; `none` models `NaN`. -/
def jsToNumber : JVal → Option ℚ
  | JVal.num q => some q
  | JVal.str s => jsStringToNumber s

/-- JavaScript division of a value by a positive count, as used by the
dashboard average; `none` models `NaN`. -/
def jsDiv (v : JVal) (n : ℕ) : Option ℚ :=
  match jsToNumber v with
  | some q => some (q / (n : ℚ))
  | none => none

/-- JavaScript `(q).toFixed(1)` on an exact nonnegative rational:
round half up to one decimal place and print with one fractional
digit. -/
def jsToFixed1 (q : ℚ) : String :=
  let n : ℤ := ⌊q * 10 + 1 / 2⌋
  toString (n / 10) ++ "." ++ toString (n % 10)

/-! ## Step registry (app.js `stepMapping` / `stepProgress`) -/

/-- Source `stepMapping`: backend step identifier to UI step slot element id. -/
def stepMapping (step : String) : Option String :=
  if step = "enhance_idea" then some "step-enhance"
  else if step = "generate_prd" then some "step-prd"
  else if step = "create_repo" then some "step-github"
  else if step = "extract_features" then some "step-features"
  else if step = "implement" then some "step-implement"
  else if step = "publish" then some "step-publish"
  else none

/-- Source `stepProgress`: backend step identifier to cumulative progress
weight out of 100. -/
def stepProgress (step : String) : Option ℤ :=
  if step = "enhance_idea" then some 16
  else if step = "generate_prd" then some 33
  else if step = "create_repo" then some 50
  else if step = "extract_features" then some 66
  else if step = "implement" then some 83
  else if step = "publish" then some 95
  else if step = "pipeline" then some 100
  else none

/-! ## PRD data model -/

structure Feature where
  name : String
  description : Option String := none
  complexity : Option String := none
deriving DecidableEq

structure UserStory where
  title : String
  story : Option String := none
  acceptance_criteria : List String := []
  features : Option (List Feature) := none
deriving DecidableEq

structure Epic where
  name : String
  description : Option String := none
  priority : Option String := none
  user_stories : Option (List UserStory) := none
deriving DecidableEq

structure ProductOverview where
  vision : String
  goals : List String := []
  success_metrics : List String := []
deriving DecidableEq

structure PRD where
  product_overview : Option ProductOverview := none
  epics : Option (List Epic) := none
deriving DecidableEq

/-- Source `countFeatures(prd)`: nested loop over `(prd.epics || [])`,
`(epic.user_stories || [])`, accumulating `(story.features || []).length`. -/
def countFeatures (prd : PRD) : ℕ :=
  (prd.epics.getD []).foldl
    (fun count epic =>
      (epic.user_stories.getD []).foldl
        (fun c story => c + (story.features.getD []).length) count)
    0

/-- One entry of the flat, indexed feature list shown at the review
gate. -/
structure FeatureRef where
  epic : String
  epicPriority : String
  story : String
  name : String
  description : String
  complexity : String
deriving DecidableEq

/-- Source `flattenFeatures(prd)`: walk epics, stories, features in document
order and record each feature with its context, applying the same
defaults as the source (priority defaulting to P1, description to the
empty string, complexity to M). -/
def flattenFeatures (prd : PRD) : List FeatureRef :=
  (prd.epics.getD []).flatMap fun epic =>
    (epic.user_stories.getD []).flatMap fun story =>
      (story.features.getD []).map fun feat =>
        { epic := epic.name
          epicPriority := epic.priority.getD "P1"
          story := story.title
          name := feat.name
          description := feat.description.getD ""
          complexity := feat.complexity.getD "M" }

/-- Positional filter, the shape of JavaScript
`array.filter((_, i) => p(i))`: keep the elements whose zero-based
index satisfies `p`, starting the count at `k`. -/
def filterIdx (p : ℕ → Bool) : ℕ → List α → List α
  | _, [] => []
  | i, x :: xs =>
      if p i then x :: filterIdx p (i + 1) xs else filterIdx p (i + 1) xs

/-- Selection filter `allFeatures.filter((_, i) => selectedIndices.includes(i))` from
`continueAfterReview`. -/
def selectByIndices (indices : List ℕ) (xs : List α) : List α :=
  filterIdx (fun i => indices.contains i) 0 xs

/-! ## Fallback content builders -/

structure TechStack where
  frontend : List String := []
  backend : List String := []
  database : List String := []
  infrastructure : List String := []
deriving DecidableEq

structure EnhancedIdea where
  title : String
  description : String
  target_users : Option String := none
  problem_statement : Option String := none
  key_value_props : List String := []
  suggested_tech_stack : Option TechStack := none
deriving DecidableEq

/-- Source `buildFallbackEnhancedIdea(appIdea, techPrefs)`: title is the first
sentence or line of the trimmed idea, cut to 80 characters, with a
fixed default when empty; the description is the raw idea; the rest is
a fixed shape.  `techPrefs` is accepted and unused, as in the source. -/
def buildFallbackEnhancedIdea (appIdea techPrefs : String) : EnhancedIdea :=
  let firstDot := (splitOnChar '.' (jsTrimList appIdea.toList)).headD []
  let firstLine := (splitOnChar '\n' firstDot).headD []
  let t := String.mk (firstLine.take 80)
  { title := if t = "" then "Application Project" else t
    description := appIdea
    target_users := some "End users who need the described functionality"
    problem_statement := some (String.mk (appIdea.toList.take 200))
    key_value_props :=
      ["Solves the core need", "Modern architecture", "Production-ready"]
    suggested_tech_stack := some
      { frontend := ["React", "TypeScript"]
        backend := ["Python", "FastAPI"]
        database := ["PostgreSQL"]
        infrastructure := ["Docker"] } }

/-- Shape of the object returned by `buildFallbackPRD`. -/
structure PRDResult where
  prd : PRD
  prd_markdown : String
deriving DecidableEq

/-- Source `buildFallbackPRD(enhancedIdea)`: the fixed four-epic skeleton
(foundation, core features, data layer, testing), parameterized only by
the enhanced idea title and description. -/
def buildFallbackPRD (enhancedIdea : EnhancedIdea) : PRDResult :=
  { prd :=
      { product_overview := some
          { vision := "Build " ++ enhancedIdea.title
            goals := ["Deliver core functionality", "Clean codebase",
                      "Good documentation"]
            success_metrics := ["All features implemented",
                                "App runs without errors"] }
        epics := some
          [ { name := "Project Foundation"
              description := some "Project setup and structure"
              priority := some "P0"
              user_stories := some
                [ { title := "Project Setup"
                    story := some "As a developer, I want a structured project so I can develop efficiently"
                    acceptance_criteria := ["Project structure follows best practices"]
                    features := some
                      [ { name := "Scaffolding"
                          description := some "Create project structure"
                          complexity := some "S" } ] } ] }
          , { name := "Core Features"
              description := some "Primary application functionality"
              priority := some "P0"
              user_stories := some
                [ { title := "Core Logic"
                    story := some "As a user, I want the main features so I can accomplish my goals"
                    acceptance_criteria := ["Core functionality works",
                                            "Error handling in place"]
                    features := some
                      [ { name := "Business logic"
                          description := some "Main features"
                          complexity := some "L" }
                      , { name := "UI"
                          description := some "User-facing interface"
                          complexity := some "M" } ] } ] }
          , { name := "Data Layer"
              description := some "Data storage and access"
              priority := some "P0"
              user_stories := some
                [ { title := "Data Persistence"
                    story := some "As a user, I want data to persist so I can access it later"
                    acceptance_criteria := ["Data stored reliably",
                                            "CRUD operations work"]
                    features := some
                      [ { name := "Database"
                          description := some "Data models and access"
                          complexity := some "M" } ] } ] }
          , { name := "Testing"
              description := some "Automated testing"
              priority := some "P1"
              user_stories := some
                [ { title := "Automated Tests"
                    story := some "As a developer, I want tests so I can refactor safely"
                    acceptance_criteria := ["Tests cover core logic"]
                    features := some
                      [ { name := "Unit tests"
                          description := some "Test core modules"
                          complexity := some "M" } ] } ] } ] }
    prd_markdown :=
      "# PRD: " ++ enhancedIdea.title ++ "\n\n" ++ enhancedIdea.description
        ++ "\n\n(Simulated PRD — Gemini API not available)" }

/-! ## GitHub username validation and repository name derivation -/

/-- Occurrence of the substring `--`, the extra rejection applied by
`isValidGitHubUsername` beyond its regular expression. -/
def hasDoubleHyphen : List Char → Bool
  | [] => false
  | [_] => false
  | a :: b :: rest => (a = '-' && b = '-') || hasDoubleHyphen (b :: rest)

/-- Source `isValidGitHubUsername`: the regular expression
`[a-zA-Z0-9]([a-zA-Z0-9-]{0,37}[a-zA-Z0-9])?` on the whole string,
combined with the extra rejection of a double hyphen. -/
def isValidGitHubUsername (username : String) : Bool :=
  (match username.toList with
   | [] => false
   | c :: rest =>
       match rest with
       | [] => c.isAlphanum
       | _ :: _ =>
           c.isAlphanum && decide (rest.length ≤ 38)
             && rest.dropLast.all (fun ch => ch.isAlphanum || ch = '-')
             && (match rest.getLast? with
                 | some lastCh => lastCh.isAlphanum
                 | none => false))
    && !hasDoubleHyphen username.toList

/-- Replace each maximal run of whitespace with a single hyphen, as the
global regex replacement of whitespace runs does. -/
def collapseWsToHyphen (cs : List Char) : List Char :=
  (cs.foldl
      (fun (acc : List Char × Bool) c =>
        if c.isWhitespace then
          if acc.2 then acc else (acc.1 ++ ['-'], true)
        else (acc.1 ++ [c], false))
      ([], false)).1

/-- Repository name derived from the enhanced idea title: lower-case,
whitespace runs to hyphens, and every character outside `[a-z0-9-]`
dropped. -/
def repoNameOf (title : String) : String :=
  String.mk
    ((collapseWsToHyphen (title.toList.map Char.toLower)).filter fun c =>
      c.isDigit || (decide ('a' ≤ c) && decide (c ≤ 'z')) || c = '-')

/-! ## Run records and network calls -/

/-- The mutable `currentRun` object.  Every field that any of the run
paths may set is present; absence is `none`.  The streaming path never
sets `startTime`; the review-gate path stores it on the record. -/
structure RunRecord where
  status : String := "running"
  error : Option String := none
  elapsedTime : Option String := none
  projectTitle : Option String := none
  description : Option String := none
  epicsCount : Option ℕ := none
  featuresCount : Option ℕ := none
  repoUrl : Option String := none
  repoFullName : Option String := none
  repoCreated : Option Bool := none
  prd : Option PRD := none
  prdMarkdown : Option String := none
  enhancedIdea : Option EnhancedIdea := none
  selectedFeatures : Option (List FeatureRef) := none
  startTime : Option ℚ := none
  apiRunning : Option Bool := none
deriving DecidableEq

/-- The HTTP requests the client can issue, in issue order. -/
inductive NetCall where
  | health
  | validateToken
  | enhanceIdea
  | generatePrd
  | createRepo (name : String)
  | pushFiles
  | postApiRun
  | openStream
  | fetchRunStatus
deriving DecidableEq

def NetCall.isCreateRepo : NetCall → Bool
  | NetCall.createRepo _ => true
  | _ => false

/-! ## SSE stream handler (part of `startRunWithSSE`) -/

/-- The `data` payload of a server-pushed event. -/
structure SSEData where
  prd_markdown : Option String := none
  epics_count : Option ℕ := none
  features_count : Option ℕ := none
  name : Option String := none
  url : Option String := none
deriving DecidableEq

/-- One parsed server-pushed StepEvent. -/
structure SSEEvent where
  step : String
  status : String
  detail : Option String := none
  data : Option SSEData := none
deriving DecidableEq

/-- Payload access `data.data?.field`: an absent payload reads as a payload of
absent fields. -/
def SSEEvent.payload (ev : SSEEvent) : SSEData :=
  ev.data.getD {}

/-- The client state touched by the stream handler: the in-progress
run, the step slot elements, the progress bar, the status line, the PRD
preview, the closed flag of the event source, the run history, and the
requests issued. -/
structure SSEState where
  run : RunRecord := {}
  startTime : ℚ := 0
  stepSlots : List (String × String × String) := []
  progress : ℤ := 0
  currentStatus : String := ""
  prdPreviewVisible : Bool := false
  prdPreviewContent : Option String := none
  closed : Bool := false
  history : List RunRecord := []
  calls : List NetCall := []
deriving DecidableEq

/-- Source `updateStepStatus`: write a status class and text into the slot
element for `sid` (an upsert on the slot association list). -/
def updateStepStatus (slots : List (String × String × String))
    (sid cls txt : String) : List (String × String × String) :=
  match slots with
  | [] => [(sid, cls, txt)]
  | (i, c, t) :: rest =>
      if i = sid then (sid, cls, txt) :: rest
      else (i, c, t) :: updateStepStatus rest sid cls txt

/-- Step slot update performed by the handler for one event. -/
def applyStepSlot (ev : SSEEvent) (st : SSEState) : SSEState :=
  match stepMapping ev.step with
  | some sid =>
      if ev.status = "in_progress" then
        { st with stepSlots :=
            updateStepStatus st.stepSlots sid "active" (ev.detail.getD "") }
      else if ev.status = "completed" then
        { st with stepSlots :=
            (updateStepStatus st.stepSlots sid "completed"
              ("✓ " ++ ev.detail.getD "")) }
      else if ev.status = "failed" then
        { st with stepSlots :=
            (updateStepStatus st.stepSlots sid "error"
              ("✗ " ++ ev.detail.getD "")) }
      else st
  | none => st

/-- The progress value written by the handler for one event: the step
weight when completed, the weight minus 10 floored at 0 otherwise; no
write when the step identifier has no weight. -/
def displayedProgress (step status : String) : Option ℤ :=
  match stepProgress step with
  | some p =>
      if p ≠ 0 then
        some (if status = "completed" then p else max (p - 10) 0)
      else none
  | none => none

def applyProgress (ev : SSEEvent) (st : SSEState) : SSEState :=
  { st with progress := (displayedProgress ev.step ev.status).getD st.progress }

def applyStatusText (ev : SSEEvent) (st : SSEState) : SSEState :=
  { st with currentStatus := ev.detail.getD "" }

/-- PRD preview display on a `generate_prd` completed event with a
truthy `prd_markdown` payload. -/
def applyPrdPreview (ev : SSEEvent) (st : SSEState) : SSEState :=
  if ev.step = "generate_prd" ∧ ev.status = "completed"
      ∧ jsTruthyS ev.payload.prd_markdown then
    { st with prdPreviewVisible := true
              prdPreviewContent := ev.payload.prd_markdown }
  else st

/-- Merge step `if (data.data?.epics_count) currentRun.epicsCount = ...`. -/
def mergeEpicsCount (ev : SSEEvent) (st : SSEState) : SSEState :=
  match ev.payload.epics_count with
  | some n =>
      if n ≠ 0 then { st with run := { st.run with epicsCount := some n } }
      else st
  | none => st

/-- Merge step `if (data.data?.features_count) currentRun.featuresCount = ...`. -/
def mergeFeaturesCount (ev : SSEEvent) (st : SSEState) : SSEState :=
  match ev.payload.features_count with
  | some n =>
      if n ≠ 0 then { st with run := { st.run with featuresCount := some n } }
      else st
  | none => st

/-- Merge step `if (data.data?.name) currentRun.repoUrl = data.data.url`. -/
def mergeRepoUrl (ev : SSEEvent) (st : SSEState) : SSEState :=
  if jsTruthyS ev.payload.name then
    { st with run := { st.run with repoUrl := ev.payload.url } }
  else st

/-- Merge of the event payload into the in-progress run: truthy counts
overwrite, and a truthy repository `name` stores the payload `url`. -/
def applyDataMerge (ev : SSEEvent) (st : SSEState) : SSEState :=
  mergeRepoUrl ev (mergeFeaturesCount ev (mergeEpicsCount ev st))

/-- Terminal handling of the synthetic `pipeline` event: close the
stream, mark the run success (recording the elapsed time from the
wall-clock start and issuing the final run fetch) or failed (recording
the event detail verbatim as the error), then append the run to the
history. -/
def applyPipeline (now : ℚ) (ev : SSEEvent) (st : SSEState) : SSEState :=
  if ev.step = "pipeline" then
    let stClosed := { st with closed := true }
    let stTerm :=
      if ev.status = "completed" then
        { stClosed with
            run := { stClosed.run with
                       status := "success"
                       elapsedTime :=
                         some (jsToFixed1 ((now - st.startTime) / 1000)) }
            calls := stClosed.calls ++ [NetCall.fetchRunStatus] }
      else
        { stClosed with
            run := { stClosed.run with
                       status := "failed"
                       error := some (ev.detail.getD "") }
            currentStatus := "Pipeline failed: " ++ ev.detail.getD "" }
    { stTerm with history := stTerm.history ++ [stTerm.run] }
  else st

/-- Source `eventSource.onmessage`: the full handling of one StepEvent, in
source order; a closed event source delivers nothing. -/
def onMessage (now : ℚ) (ev : SSEEvent) (st : SSEState) : SSEState :=
  if st.closed then st
  else
    applyPipeline now ev
      (applyDataMerge ev
        (applyPrdPreview ev
          (applyStatusText ev
            (applyProgress ev
              (applyStepSlot ev st)))))

/-- The client state right after the stream is opened. -/
def initSSE (startTime : ℚ) : SSEState :=
  { startTime := startTime
    currentStatus := "Pipeline started — streaming progress..." }

/-! ## Settings and backend environment -/

/-- The persisted settings object. -/
structure Settings where
  geminiKey : Option String := none
  githubToken : Option String := none
  githubUsername : String := ""
  anthropicKey : Option String := none
  privateRepos : Option Bool := none
deriving DecidableEq

structure EnhanceApiResp where
  success : Bool := false
  enhanced_idea : Option EnhancedIdea := none
  message : Option String := none
deriving DecidableEq

structure PrdApiResp where
  success : Bool := false
  prd : Option PRD := none
  prd_markdown : Option String := none
  message : Option String := none
deriving DecidableEq

structure RepoApiResp where
  url : String
  full_name : String
  name : String
deriving DecidableEq

/-- Oracle for everything outside the client: whether the backend is
reachable, what each endpoint answers (`none` models a request that
throws), and what the user types at the username prompt (`none` models
a cancelled prompt). -/
structure ApiEnv where
  apiRunning : Bool := false
  tokenValid : Bool := false
  tokenUsername : Option String := none
  promptUsername : Option String := none
  enhanceResp : Option EnhanceApiResp := none
  prdResp : Option PrdApiResp := none
  repoResp : Option RepoApiResp := none
  startRunAccepted : Bool := false
deriving DecidableEq

/-! ## Shared pipeline steps

The legacy path (`startRunLegacy`) and the review-gate path
(`startRun` / `continueAfterReview`) contain textually identical step
bodies; each body is transcribed once here and used by both models. -/

/-- GitHub token validation at run start: on a valid token with a
username, the settings username is overwritten. -/
def tokenStep (env : ApiEnv) (apiRunning : Bool) (settings : Settings) :
    Settings × List NetCall :=
  if apiRunning && jsTruthyS settings.githubToken then
    (if env.tokenValid && jsTruthyS env.tokenUsername then
       { settings with githubUsername :=
           env.tokenUsername.getD settings.githubUsername }
     else settings,
     [NetCall.validateToken])
  else (settings, [])

/-- Username validation: an invalid stored username prompts once; an
absent or invalid answer aborts the run (`none`). -/
def usernameStep (env : ApiEnv) (settings : Settings) : Option Settings :=
  if isValidGitHubUsername settings.githubUsername then some settings
  else
    match env.promptUsername with
    | some u =>
        if isValidGitHubUsername u then
          some { settings with githubUsername := u }
        else none
    | none => none

/-- Step 1: enhance the idea through the backend when it is reachable
and a Gemini key is configured, falling back to the local builder on an
unsuccessful response, a missing payload, or a thrown request. -/
def resolveEnhanced (env : ApiEnv) (apiRunning : Bool)
    (geminiKey : Option String) (appIdea techPrefs : String) :
    EnhancedIdea × List NetCall :=
  if apiRunning && jsTruthyS geminiKey then
    (match env.enhanceResp with
     | some r =>
         match r.enhanced_idea with
         | some e =>
             if r.success then e
             else buildFallbackEnhancedIdea appIdea techPrefs
         | none => buildFallbackEnhancedIdea appIdea techPrefs
     | none => buildFallbackEnhancedIdea appIdea techPrefs,
     [NetCall.enhanceIdea])
  else (buildFallbackEnhancedIdea appIdea techPrefs, [])

/-- Step 2: generate the PRD through the backend under the same
conditions, falling back to the local four-epic skeleton. -/
def resolvePrd (env : ApiEnv) (apiRunning : Bool) (geminiKey : Option String)
    (e : EnhancedIdea) : (PRD × Option String) × List NetCall :=
  let fb := buildFallbackPRD e
  if apiRunning && jsTruthyS geminiKey then
    (match env.prdResp with
     | some r =>
         match r.prd with
         | some p => if r.success then (p, r.prd_markdown)
                     else (fb.prd, some fb.prd_markdown)
         | none => (fb.prd, some fb.prd_markdown)
     | none => (fb.prd, some fb.prd_markdown),
     [NetCall.generatePrd])
  else ((fb.prd, some fb.prd_markdown), [])

/-- Step 3: create the repository through the backend when reachable
with a token (a thrown call degrades to a simulated locally-derived
URL), otherwise simulate it outright.  Returns the repository URL, the
full name when actually created, and the created flag. -/
def repoStep (env : ApiEnv) (apiRunning : Bool) (settings : Settings)
    (e : EnhancedIdea) : (String × Option String × Bool) × List NetCall :=
  let repoName := repoNameOf e.title
  let simulatedUrl :=
    "https://github.com/" ++ settings.githubUsername ++ "/" ++ repoName
  if apiRunning && jsTruthyS settings.githubToken then
    (match env.repoResp with
     | some r => (r.url, some r.full_name, true)
     | none => (simulatedUrl, none, false),
     [NetCall.createRepo repoName])
  else ((simulatedUrl, none, false), [])

/-! ## Legacy (simulated step-by-step) path -/

/-- Result of invoking a run entry point: the final `currentRun` value
(`none` when validation rejected before creating one), the network
calls issued, and the records appended to the run history. -/
structure StartOut where
  run : Option RunRecord := none
  calls : List NetCall := []
  history : List RunRecord := []
deriving DecidableEq

/-- Source `startRunLegacy`: validate, then execute all six steps with local
fallbacks, finishing with a success record (every step-level error is
caught inside its step in the source; the modelled failure points are
the network oracles, so the outer catch is unreachable).  `now0` and
`now1` are the wall-clock times at start and at completion. -/
def startRunLegacyM (ideaRaw techRaw : String) (settings0 : Settings)
    (env : ApiEnv) (now0 now1 : ℚ) : StartOut :=
  let appIdea := jsTrim ideaRaw
  let techPrefs := jsTrim techRaw
  if appIdea = "" then {}
  else
    let apiRunning := env.apiRunning
    let tokOut := tokenStep env apiRunning settings0
    match usernameStep env tokOut.1 with
    | none => { calls := [NetCall.health] ++ tokOut.2 }
    | some settings =>
        let eOut :=
          resolveEnhanced env apiRunning settings.geminiKey appIdea techPrefs
        let pOut := resolvePrd env apiRunning settings.geminiKey eOut.1
        let rOut := repoStep env apiRunning settings eOut.1
        let pushCalls :=
          if rOut.1.2.2 && jsTruthyS rOut.1.2.1 then [NetCall.pushFiles]
          else []
        let record : RunRecord :=
          { status := "success"
            projectTitle := some eOut.1.title
            description := some eOut.1.description
            enhancedIdea := some eOut.1
            prd := some pOut.1.1
            prdMarkdown := pOut.1.2
            epicsCount := some (pOut.1.1.epics.getD []).length
            featuresCount := some (countFeatures pOut.1.1)
            repoUrl := some rOut.1.1
            repoFullName := rOut.1.2.1
            repoCreated := some rOut.1.2.2
            elapsedTime := some (jsToFixed1 ((now1 - now0) / 1000)) }
        { run := some record
          calls := [NetCall.health] ++ tokOut.2 ++ eOut.2 ++ pOut.2
                     ++ rOut.2 ++ pushCalls
          history := [record] }

/-! ## Review-gate path (`startRun` phase 1, `continueAfterReview`) -/

/-- Result of `startRun` phase 1: the paused `currentRun` (still
`running`), the calls issued, and whether the review section is shown
awaiting the continue button. -/
structure ReviewStartOut where
  run : Option RunRecord := none
  calls : List NetCall := []
  history : List RunRecord := []
  pausedForReview : Bool := false
deriving DecidableEq

/-- Source `startRun` (review-gate version): validate, enhance, generate the
PRD, record title, description, epic and feature counts, then stop at
the review section.  Steps 3 to 6 are not entered here. -/
def startRunReviewM (ideaRaw techRaw : String) (settings0 : Settings)
    (env : ApiEnv) (now : ℚ) : ReviewStartOut :=
  let appIdea := jsTrim ideaRaw
  let techPrefs := jsTrim techRaw
  if appIdea = "" then {}
  else
    let apiRunning := env.apiRunning
    let tokOut := tokenStep env apiRunning settings0
    match usernameStep env tokOut.1 with
    | none => { calls := [NetCall.health] ++ tokOut.2 }
    | some settings =>
        let eOut :=
          resolveEnhanced env apiRunning settings.geminiKey appIdea techPrefs
        let pOut := resolvePrd env apiRunning settings.geminiKey eOut.1
        let run : RunRecord :=
          { status := "running"
            startTime := some now
            apiRunning := some apiRunning
            projectTitle := some eOut.1.title
            description := some eOut.1.description
            enhancedIdea := some eOut.1
            prd := some pOut.1.1
            prdMarkdown := pOut.1.2
            epicsCount := some (pOut.1.1.epics.getD []).length
            featuresCount := some (countFeatures pOut.1.1) }
        { run := some run
          calls := [NetCall.health] ++ tokOut.2 ++ eOut.2 ++ pOut.2
          pausedForReview := true }

/-- Result of `continueAfterReview`: the finished record (`none` when
the guard on an active run with an enhanced idea and a PRD fails), the
calls issued, and the record appended to the history. -/
structure ContinueOut where
  run : Option RunRecord := none
  calls : List NetCall := []
  history : List RunRecord := []
deriving DecidableEq

/-- Source `continueAfterReview`: filter the flattened features by the checked
indices, store the selection size as `featuresCount`, run steps 3 to 6
with the same fallbacks as the legacy path, record the elapsed time
from the stored start, and append the record. -/
def continueAfterReviewM (current : Option RunRecord) (indices : List ℕ)
    (settings : Settings) (env : ApiEnv) (now : ℚ) : ContinueOut :=
  match current with
  | none => {}
  | some run =>
      match run.enhancedIdea, run.prd with
      | some e, some p =>
          let apiRunning := run.apiRunning.getD false
          let allFeatures := flattenFeatures p
          let selected := selectByIndices indices allFeatures
          let run1 := { run with featuresCount := some selected.length
                                 selectedFeatures := some selected }
          let rOut := repoStep env apiRunning settings e
          let run2 := { run1 with repoUrl := some rOut.1.1
                                  repoFullName := rOut.1.2.1
                                  repoCreated := some rOut.1.2.2 }
          let pushCalls :=
            if rOut.1.2.2 && jsTruthyS rOut.1.2.1 then [NetCall.pushFiles]
            else []
          let elapsed :=
            match run.startTime with
            | some t0 => jsToFixed1 ((now - t0) / 1000)
            | none => "NaN"
          let run3 := { run2 with status := "success"
                                  elapsedTime := some elapsed }
          { run := some run3
            calls := rOut.2 ++ pushCalls
            history := [run3] }
      | _, _ => {}

/-! ## SSE entry point (`startRunWithSSE` before streaming) -/

/-- Outcome of `startRunWithSSE` up to the point where either the
stream is attached or the legacy fallback has run to completion. -/
structure SSEStartOut where
  run : Option RunRecord := none
  calls : List NetCall := []
  history : List RunRecord := []
  streaming : Bool := false
deriving DecidableEq

/-- Source `startRunWithSSE`: reject an empty or too-short idea before any
request; otherwise post the run and either attach the stream or, when
the post fails, fall back to the whole legacy path. -/
def startRunWithSSEM (ideaRaw techRaw : String) (settings : Settings)
    (env : ApiEnv) (now0 now1 : ℚ) : SSEStartOut :=
  let appIdea := jsTrim ideaRaw
  if appIdea = "" then {}
  else if appIdea.length < 20 then {}
  else
    let run0 : RunRecord := { status := "running" }
    if env.startRunAccepted then
      { run := some run0
        calls := [NetCall.postApiRun, NetCall.openStream]
        streaming := true }
    else
      let legacy := startRunLegacyM ideaRaw techRaw settings env now0 now1
      { run := match legacy.run with
               | some r => some r
               | none => some run0
        calls := NetCall.postApiRun :: legacy.calls
        history := legacy.history
        streaming := false }

/-! ## Dashboard aggregation (`updateDashboard`) -/

structure DashboardStats where
  total : ℕ
  successful : ℕ
  avgTime : Option ℚ
  totalFeatures : ℕ
deriving DecidableEq

/-- The reduce over the history computing the elapsed-time sum:
JavaScript `history.reduce((sum, r) => sum + (r.elapsedTime || 0), 0)`.
Because the run paths store `elapsedTime` as the string returned by
`toFixed(1)`, the accumulator switches to string concatenation at the
first present value. -/
def dashboardElapsedSum (history : List RunRecord) : JVal :=
  history.foldl
    (fun acc r =>
      jsAdd acc
        (match r.elapsedTime with
         | some s => if s = "" then JVal.num 0 else JVal.str s
         | none => JVal.num 0))
    (JVal.num 0)

/-- Source `updateDashboard`: total, successful count, average elapsed time
(`none` models the `NaN` display), and the feature total. -/
def updateDashboardM (history : List RunRecord) : DashboardStats :=
  { total := history.length
    successful := (history.filter fun r => r.status = "success").length
    avgTime :=
      if history.length > 0 then
        jsDiv (dashboardElapsedSum history) history.length
      else some 0
    totalFeatures := history.foldl (fun acc r => acc + r.featuresCount.getD 0) 0 }

/-! ## Helper lemmas -/

theorem filterIdx_eq_self (p : ℕ → Bool) :
    ∀ (xs : List α) (k : ℕ),
      (∀ i, k ≤ i → i < k + xs.length → p i = true) → filterIdx p k xs = xs := by
  intro xs
  induction xs with
  | nil => intro k _; rfl
  | cons x xs ih =>
      intro k h
      have hpk : p k = true := h k le_rfl (by simp only [List.length_cons]; omega)
      simp only [filterIdx, hpk, if_true]
      exact congrArg (x :: ·) (ih (k + 1) fun i h1 h2 => h i (by omega) (by simp at h2 ⊢; omega))

theorem filterIdx_sublist (p : ℕ → Bool) :
    ∀ (xs : List α) (k : ℕ), (filterIdx p k xs).Sublist xs := by
  intro xs
  induction xs with
  | nil => intro k; exact List.Sublist.refl []
  | cons x xs ih =>
      intro k
      by_cases hp : p k = true
      · simpa only [filterIdx, hp, if_true] using List.Sublist.cons₂ x (ih (k + 1))
      · have hp' : p k = false := by revert hp; cases p k <;> simp
        simpa only [filterIdx, hp', Bool.false_eq_true, if_false]
          using List.Sublist.cons x (ih (k + 1))

theorem selectByIndices_range (xs : List α) :
    selectByIndices (List.range xs.length) xs = xs := by
  unfold selectByIndices
  apply filterIdx_eq_self
  intro i _ h2
  have : i ∈ List.range xs.length := List.mem_range.mpr (by omega)
  exact List.elem_eq_true_of_mem this

/-! Field preservation lemmas for the stream handler components. -/

theorem applyStepSlot_run (ev : SSEEvent) (st : SSEState) :
    (applyStepSlot ev st).run = st.run := by
  unfold applyStepSlot
  cases stepMapping ev.step <;> simp only [] <;> split_ifs <;> rfl

theorem applyStepSlot_history (ev : SSEEvent) (st : SSEState) :
    (applyStepSlot ev st).history = st.history := by
  unfold applyStepSlot
  cases stepMapping ev.step <;> simp only [] <;> split_ifs <;> rfl

theorem applyStepSlot_closed (ev : SSEEvent) (st : SSEState) :
    (applyStepSlot ev st).closed = st.closed := by
  unfold applyStepSlot
  cases stepMapping ev.step <;> simp only [] <;> split_ifs <;> rfl

theorem applyStepSlot_progress (ev : SSEEvent) (st : SSEState) :
    (applyStepSlot ev st).progress = st.progress := by
  unfold applyStepSlot
  cases stepMapping ev.step <;> simp only [] <;> split_ifs <;> rfl

theorem applyStepSlot_calls (ev : SSEEvent) (st : SSEState) :
    (applyStepSlot ev st).calls = st.calls := by
  unfold applyStepSlot
  cases stepMapping ev.step <;> simp only [] <;> split_ifs <;> rfl

theorem applyStepSlot_startTime (ev : SSEEvent) (st : SSEState) :
    (applyStepSlot ev st).startTime = st.startTime := by
  unfold applyStepSlot
  cases stepMapping ev.step <;> simp only [] <;> split_ifs <;> rfl

theorem applyStepSlot_unknown (ev : SSEEvent) (st : SSEState)
    (h : stepMapping ev.step = none) : applyStepSlot ev st = st := by
  unfold applyStepSlot
  rw [h]

theorem applyProgress_run (ev : SSEEvent) (st : SSEState) :
    (applyProgress ev st).run = st.run := rfl

theorem applyProgress_history (ev : SSEEvent) (st : SSEState) :
    (applyProgress ev st).history = st.history := rfl

theorem applyProgress_closed (ev : SSEEvent) (st : SSEState) :
    (applyProgress ev st).closed = st.closed := rfl

theorem applyProgress_stepSlots (ev : SSEEvent) (st : SSEState) :
    (applyProgress ev st).stepSlots = st.stepSlots := rfl

theorem applyProgress_calls (ev : SSEEvent) (st : SSEState) :
    (applyProgress ev st).calls = st.calls := rfl

theorem applyProgress_startTime (ev : SSEEvent) (st : SSEState) :
    (applyProgress ev st).startTime = st.startTime := rfl

theorem applyProgress_progress (ev : SSEEvent) (st : SSEState) :
    (applyProgress ev st).progress
      = (displayedProgress ev.step ev.status).getD st.progress := rfl

theorem applyStatusText_run (ev : SSEEvent) (st : SSEState) :
    (applyStatusText ev st).run = st.run := rfl

theorem applyStatusText_history (ev : SSEEvent) (st : SSEState) :
    (applyStatusText ev st).history = st.history := rfl

theorem applyStatusText_closed (ev : SSEEvent) (st : SSEState) :
    (applyStatusText ev st).closed = st.closed := rfl

theorem applyStatusText_stepSlots (ev : SSEEvent) (st : SSEState) :
    (applyStatusText ev st).stepSlots = st.stepSlots := rfl

theorem applyStatusText_progress (ev : SSEEvent) (st : SSEState) :
    (applyStatusText ev st).progress = st.progress := rfl

theorem applyStatusText_calls (ev : SSEEvent) (st : SSEState) :
    (applyStatusText ev st).calls = st.calls := rfl

theorem applyStatusText_startTime (ev : SSEEvent) (st : SSEState) :
    (applyStatusText ev st).startTime = st.startTime := rfl

theorem applyPrdPreview_run (ev : SSEEvent) (st : SSEState) :
    (applyPrdPreview ev st).run = st.run := by
  unfold applyPrdPreview; split_ifs <;> rfl

theorem applyPrdPreview_history (ev : SSEEvent) (st : SSEState) :
    (applyPrdPreview ev st).history = st.history := by
  unfold applyPrdPreview; split_ifs <;> rfl

theorem applyPrdPreview_closed (ev : SSEEvent) (st : SSEState) :
    (applyPrdPreview ev st).closed = st.closed := by
  unfold applyPrdPreview; split_ifs <;> rfl

theorem applyPrdPreview_stepSlots (ev : SSEEvent) (st : SSEState) :
    (applyPrdPreview ev st).stepSlots = st.stepSlots := by
  unfold applyPrdPreview; split_ifs <;> rfl

theorem applyPrdPreview_progress (ev : SSEEvent) (st : SSEState) :
    (applyPrdPreview ev st).progress = st.progress := by
  unfold applyPrdPreview; split_ifs <;> rfl

theorem applyPrdPreview_calls (ev : SSEEvent) (st : SSEState) :
    (applyPrdPreview ev st).calls = st.calls := by
  unfold applyPrdPreview; split_ifs <;> rfl

theorem applyPrdPreview_startTime (ev : SSEEvent) (st : SSEState) :
    (applyPrdPreview ev st).startTime = st.startTime := by
  unfold applyPrdPreview; split_ifs <;> rfl

theorem applyDataMerge_shape (ev : SSEEvent) (st : SSEState) :
    ∃ ec fc ru, applyDataMerge ev st =
      { st with run :=
          { st.run with epicsCount := ec, featuresCount := fc, repoUrl := ru } } := by
  unfold applyDataMerge mergeRepoUrl mergeFeaturesCount mergeEpicsCount
  (repeat' split) <;> exact ⟨_, _, _, rfl⟩

theorem applyDataMerge_keeps (ev : SSEEvent) (st : SSEState) :
    (applyDataMerge ev st).run.status = st.run.status
      ∧ (applyDataMerge ev st).run.error = st.run.error
      ∧ (applyDataMerge ev st).run.elapsedTime = st.run.elapsedTime
      ∧ (applyDataMerge ev st).history = st.history
      ∧ (applyDataMerge ev st).closed = st.closed
      ∧ (applyDataMerge ev st).stepSlots = st.stepSlots
      ∧ (applyDataMerge ev st).progress = st.progress
      ∧ (applyDataMerge ev st).calls = st.calls
      ∧ (applyDataMerge ev st).startTime = st.startTime := by
  obtain ⟨ec, fc, ru, h⟩ := applyDataMerge_shape ev st
  rw [h]
  exact ⟨rfl, rfl, rfl, rfl, rfl, rfl, rfl, rfl, rfl⟩

theorem applyPipeline_not_pipeline (now : ℚ) (ev : SSEEvent) (st : SSEState)
    (h : ev.step ≠ "pipeline") : applyPipeline now ev st = st := by
  unfold applyPipeline
  rw [if_neg h]

theorem applyPipeline_stepSlots (now : ℚ) (ev : SSEEvent) (st : SSEState) :
    (applyPipeline now ev st).stepSlots = st.stepSlots := by
  unfold applyPipeline
  split_ifs <;> rfl

theorem applyPipeline_progress (now : ℚ) (ev : SSEEvent) (st : SSEState) :
    (applyPipeline now ev st).progress = st.progress := by
  unfold applyPipeline
  split_ifs <;> rfl

theorem applyPipeline_completed (now : ℚ) (ev : SSEEvent) (st : SSEState)
    (hstep : ev.step = "pipeline") (hstatus : ev.status = "completed") :
    applyPipeline now ev st =
      { st with
          closed := true
          run := { st.run with
                     status := "success"
                     elapsedTime :=
                       some (jsToFixed1 ((now - st.startTime) / 1000)) }
          calls := st.calls ++ [NetCall.fetchRunStatus]
          history := st.history ++
            [{ st.run with
                 status := "success"
                 elapsedTime :=
                   some (jsToFixed1 ((now - st.startTime) / 1000)) }] } := by
  simp [applyPipeline, hstep, hstatus]

theorem applyPipeline_failed (now : ℚ) (ev : SSEEvent) (st : SSEState)
    (hstep : ev.step = "pipeline") (hstatus : ev.status ≠ "completed") :
    applyPipeline now ev st =
      { st with
          closed := true
          run := { st.run with
                     status := "failed"
                     error := some (ev.detail.getD "") }
          currentStatus := "Pipeline failed: " ++ ev.detail.getD ""
          history := st.history ++
            [{ st.run with
                 status := "failed"
                 error := some (ev.detail.getD "") }] } := by
  simp [applyPipeline, hstep, hstatus]

theorem onMessage_closed (now : ℚ) (ev : SSEEvent) (st : SSEState)
    (h : st.closed = true) : onMessage now ev st = st := by
  unfold onMessage
  rw [if_pos h]

theorem onMessage_progress (now : ℚ) (ev : SSEEvent) (st : SSEState)
    (h : st.closed = false) :
    (onMessage now ev st).progress
      = (displayedProgress ev.step ev.status).getD st.progress := by
  unfold onMessage
  rw [if_neg (by rw [h]; exact Bool.false_ne_true)]
  rw [applyPipeline_progress, (applyDataMerge_keeps _ _).2.2.2.2.2.2.1,
    applyPrdPreview_progress, applyStatusText_progress, applyProgress_progress,
    applyStepSlot_progress]

/-! ## Claim theorems -/

/-- Claim C10: for every PRD tree, `countFeatures` agrees with the
length of `flattenFeatures`, including when `epics`, `user_stories` or
`features` arrays are missing. -/
theorem countFeatures_agrees_with_flattenFeatures_length (prd : PRD) :
    countFeatures prd = (flattenFeatures prd).length := by
  have gen : ∀ {β : Type} (g : β → ℕ) (l : List β) (c : ℕ),
      l.foldl (fun acc x => acc + g x) c = c + (l.map g).sum := by
    intro β g l
    induction l with
    | nil => intro c; simp
    | cons x xs ih =>
        intro c
        simp only [List.foldl_cons, List.map_cons, List.sum_cons, ih]
        omega
  unfold countFeatures flattenFeatures
  simp only [gen]
  simp only [Nat.zero_add, List.length_flatMap, List.map_map]
  refine congrArg List.sum (List.map_congr_left fun epic _ => ?_)
  simp [Function.comp_def, List.length_flatMap, List.map_map, List.length_map]

/-- Claim C3: flattening then selecting with the full index set
reproduces the flattened feature list; selection with any index set
preserves the original relative order (it yields a sublist); and after
`continueAfterReview` the recorded `featuresCount` equals the size of
the selected subset with status success, for every index set including
the empty one. -/
theorem flatten_select_roundtrip_order_and_count :
    (∀ (p : PRD),
        selectByIndices (List.range (flattenFeatures p).length)
            (flattenFeatures p)
          = flattenFeatures p)
  ∧ (∀ (indices : List ℕ) (p : PRD),
        (selectByIndices indices (flattenFeatures p)).Sublist
          (flattenFeatures p))
  ∧ (∀ (run : RunRecord) (e : EnhancedIdea) (p : PRD) (indices : List ℕ)
        (settings : Settings) (env : ApiEnv) (now : ℚ),
        ((continueAfterReviewM
            (some { run with enhancedIdea := some e, prd := some p })
            indices settings env now).run.map
          fun r => (r.featuresCount, r.status))
          = some (some (selectByIndices indices (flattenFeatures p)).length,
                  "success")) := by
  refine ⟨fun p => selectByIndices_range _, fun indices p => ?_, ?_⟩
  · exact filterIdx_sublist _ _ _
  · intro run e p indices settings env now
    simp [continueAfterReviewM]

/-- Claim C2: a `pipeline` StepEvent with status failed and detail X
produces a run record with status failed and error X verbatim, appended
to the history exactly once; the stream closes, so no later event can
touch the state again. -/
theorem pipeline_failed_records_error_verbatim_and_appends_once
    (st : SSEState) (now : ℚ) (ev : SSEEvent) (X : String)
    (h : st.closed = false) (hstep : ev.step = "pipeline")
    (hstatus : ev.status = "failed") (hdetail : ev.detail = some X) :
    (onMessage now ev st).run.status = "failed"
      ∧ (onMessage now ev st).run.error = some X
      ∧ (onMessage now ev st).history = st.history ++ [(onMessage now ev st).run]
      ∧ ∀ (now2 : ℚ) (ev2 : SSEEvent),
          onMessage now2 ev2 (onMessage now ev st) = onMessage now ev st := by
  have hne : ev.status ≠ "completed" := by rw [hstatus]; decide
  have hmsg : onMessage now ev st
      = applyPipeline now ev
          (applyDataMerge ev
            (applyPrdPreview ev
              (applyStatusText ev
                (applyProgress ev (applyStepSlot ev st))))) := by
    unfold onMessage
    rw [h]
    simp
  set mid := applyDataMerge ev
      (applyPrdPreview ev
        (applyStatusText ev
          (applyProgress ev (applyStepSlot ev st)))) with hmid
  have hhist : mid.history = st.history := by
    rw [hmid, (applyDataMerge_keeps _ _).2.2.2.1, applyPrdPreview_history,
      applyStatusText_history, applyProgress_history, applyStepSlot_history]
  have hpipe := applyPipeline_failed now ev mid hstep hne
  rw [hmsg, hpipe]
  refine ⟨rfl, by rw [hdetail]; rfl, ?_, ?_⟩
  · rw [hhist]
  · intro now2 ev2
    exact onMessage_closed now2 ev2 _ rfl

/-- Claim C2 witness: the theorem instantiated at a fresh stream state
and a concrete failed pipeline event. -/
theorem pipeline_failed_witness :
    (initSSE 1000).closed = false
      ∧ (onMessage 9000
          { step := "pipeline", status := "failed", detail := some "Gemini API quota exceeded" }
          (initSSE 1000)).run.status = "failed"
      ∧ (onMessage 9000
          { step := "pipeline", status := "failed", detail := some "Gemini API quota exceeded" }
          (initSSE 1000)).run.error = some "Gemini API quota exceeded" := by
  have hmain := pipeline_failed_records_error_verbatim_and_appends_once
    (initSSE 1000) 9000
    { step := "pipeline", status := "failed", detail := some "Gemini API quota exceeded" }
    "Gemini API quota exceeded" rfl rfl rfl rfl
  exact ⟨rfl, hmain.1, hmain.2.1⟩

/-- Claim C6 (amended): `elapsedSeconds` is computed exactly once, at
the success terminal transition, from the wall-clock start to that
instant, and never recomputed because the closed stream delivers no
further events; a failed terminal transition leaves it untouched (the
failed record carries no elapsed time), and the review-gate completion
likewise computes it once from the stored start time. -/
theorem elapsed_computed_once_at_success_terminal_only
    (st : SSEState) (now now2 : ℚ) (ev ev2 : SSEEvent) :
    (st.closed = false → ev.step ≠ "pipeline" →
       (onMessage now ev st).run.elapsedTime = st.run.elapsedTime)
  ∧ (st.closed = false → ev.step = "pipeline" → ev.status = "completed" →
       (onMessage now ev st).run.elapsedTime
           = some (jsToFixed1 ((now - st.startTime) / 1000))
         ∧ (onMessage now ev st).closed = true)
  ∧ (st.closed = false → ev.step = "pipeline" → ev.status ≠ "completed" →
       (onMessage now ev st).run.elapsedTime = st.run.elapsedTime)
  ∧ (st.closed = true → onMessage now2 ev2 st = st)
  ∧ (∀ (run : RunRecord) (e : EnhancedIdea) (p : PRD) (t0 : ℚ)
       (indices : List ℕ) (settings : Settings) (env : ApiEnv),
       ((continueAfterReviewM
           (some { run with enhancedIdea := some e, prd := some p,
                            startTime := some t0 })
           indices settings env now).run.map fun r => r.elapsedTime)
         = some (some (jsToFixed1 ((now - t0) / 1000)))) := by
  have hchain : ∀ (hcl : st.closed = false), onMessage now ev st
      = applyPipeline now ev
          (applyDataMerge ev
            (applyPrdPreview ev
              (applyStatusText ev
                (applyProgress ev (applyStepSlot ev st))))) := by
    intro hcl
    unfold onMessage
    rw [hcl]
    simp
  set mid := applyDataMerge ev
      (applyPrdPreview ev
        (applyStatusText ev
          (applyProgress ev (applyStepSlot ev st)))) with hmid
  have hrunelapsed : mid.run.elapsedTime = st.run.elapsedTime := by
    rw [hmid, (applyDataMerge_keeps _ _).2.2.1, applyPrdPreview_run,
      applyStatusText_run, applyProgress_run, applyStepSlot_run]
  have hstart : mid.startTime = st.startTime := by
    rw [hmid, (applyDataMerge_keeps _ _).2.2.2.2.2.2.2.2, applyPrdPreview_startTime,
      applyStatusText_startTime, applyProgress_startTime, applyStepSlot_startTime]
  refine ⟨?_, ?_, ?_, fun hcl => onMessage_closed now2 ev2 st hcl, ?_⟩
  · intro hcl hne
    rw [hchain hcl, applyPipeline_not_pipeline now ev mid hne, hrunelapsed]
  · intro hcl hstep hstatus
    rw [hchain hcl, applyPipeline_completed now ev mid hstep hstatus]
    exact ⟨by rw [hstart], rfl⟩
  · intro hcl hstep hstatus
    rw [hchain hcl, applyPipeline_failed now ev mid hstep hstatus, hrunelapsed]
  · intro run e p t0 indices settings env
    simp [continueAfterReviewM]

/-- Claim C6 witness: the amended theorem instantiated at a fresh
stream, a non-terminal event, a successful pipeline event, and a failed
pipeline event. -/
theorem elapsed_computed_once_witness :
    (initSSE 1000).closed = false
      ∧ (onMessage 5000
          { step := "implement", status := "completed", detail := some "ok" }
          (initSSE 1000)).run.elapsedTime = (initSSE 1000).run.elapsedTime
      ∧ (onMessage 9000
          { step := "pipeline", status := "completed", detail := some "done" }
          (initSSE 1000)).run.elapsedTime
          = some (jsToFixed1 ((9000 - (initSSE 1000).startTime) / 1000))
      ∧ (onMessage 9000
          { step := "pipeline", status := "failed", detail := some "boom" }
          (initSSE 1000)).run.elapsedTime = (initSSE 1000).run.elapsedTime := by
  refine ⟨rfl, ?_, ?_, ?_⟩
  · exact (elapsed_computed_once_at_success_terminal_only (initSSE 1000) 5000 0
      { step := "implement", status := "completed", detail := some "ok" }
      { step := "implement", status := "completed", detail := some "ok" }).1
      rfl (by decide)
  · exact ((elapsed_computed_once_at_success_terminal_only (initSSE 1000) 9000 0
      { step := "pipeline", status := "completed", detail := some "done" }
      { step := "pipeline", status := "completed", detail := some "done" }).2.1
      rfl rfl rfl).1
  · exact (elapsed_computed_once_at_success_terminal_only (initSSE 1000) 9000 0
      { step := "pipeline", status := "failed", detail := some "boom" }
      { step := "pipeline", status := "failed", detail := some "boom" }).2.2.1
      rfl rfl (by decide)

/-- Claim C6 counterexample: a run terminated by a failed pipeline
event reaches the terminal status `failed` with `elapsedTime` never
computed (the record enters the history without it), refuting the claim
that elapsed time is computed at every terminal transition. -/
theorem failed_run_has_no_elapsed_time :
    (onMessage 9000
        { step := "pipeline", status := "failed", detail := some "Gemini quota exceeded" }
        (initSSE 1000)).run.status = "failed"
      ∧ (onMessage 9000
          { step := "pipeline", status := "failed", detail := some "Gemini quota exceeded" }
          (initSSE 1000)).run.elapsedTime = none
      ∧ ((onMessage 9000
          { step := "pipeline", status := "failed", detail := some "Gemini quota exceeded" }
          (initSSE 1000)).history.map fun r => r.elapsedTime) = [none] :=
  ⟨rfl, rfl, rfl⟩

/-- Claim C8: after processing an event for a known step, the displayed
overall progress equals the fixed weight on `completed`
(enhance_idea 16, generate_prd 33, create_repo 50, extract_features 66,
implement 83, publish 95, pipeline 100) and the weight minus 10 floored
at 0 on `in_progress`. -/
theorem known_step_progress_weights
    (st : SSEState) (now : ℚ) (d : Option String) (data : Option SSEData)
    (h : st.closed = false) :
    ((onMessage now { step := "enhance_idea", status := "completed", detail := d, data := data } st).progress = 16
      ∧ (onMessage now { step := "enhance_idea", status := "in_progress", detail := d, data := data } st).progress = max (16 - 10) 0)
  ∧ ((onMessage now { step := "generate_prd", status := "completed", detail := d, data := data } st).progress = 33
      ∧ (onMessage now { step := "generate_prd", status := "in_progress", detail := d, data := data } st).progress = max (33 - 10) 0)
  ∧ ((onMessage now { step := "create_repo", status := "completed", detail := d, data := data } st).progress = 50
      ∧ (onMessage now { step := "create_repo", status := "in_progress", detail := d, data := data } st).progress = max (50 - 10) 0)
  ∧ ((onMessage now { step := "extract_features", status := "completed", detail := d, data := data } st).progress = 66
      ∧ (onMessage now { step := "extract_features", status := "in_progress", detail := d, data := data } st).progress = max (66 - 10) 0)
  ∧ ((onMessage now { step := "implement", status := "completed", detail := d, data := data } st).progress = 83
      ∧ (onMessage now { step := "implement", status := "in_progress", detail := d, data := data } st).progress = max (83 - 10) 0)
  ∧ ((onMessage now { step := "publish", status := "completed", detail := d, data := data } st).progress = 95
      ∧ (onMessage now { step := "publish", status := "in_progress", detail := d, data := data } st).progress = max (95 - 10) 0)
  ∧ ((onMessage now { step := "pipeline", status := "completed", detail := d, data := data } st).progress = 100
      ∧ (onMessage now { step := "pipeline", status := "in_progress", detail := d, data := data } st).progress = max (100 - 10) 0) := by
  refine ⟨⟨?_, ?_⟩, ⟨?_, ?_⟩, ⟨?_, ?_⟩, ⟨?_, ?_⟩, ⟨?_, ?_⟩, ⟨?_, ?_⟩, ⟨?_, ?_⟩⟩ <;>
    (rw [onMessage_progress _ _ _ h]; rfl)

/-- Claim C8 witness: the theorem instantiated at a fresh stream
state. -/
theorem known_step_progress_weights_witness :
    (initSSE 0).closed = false
      ∧ (onMessage 0 { step := "publish", status := "completed", detail := some "p" } (initSSE 0)).progress = 95
      ∧ (onMessage 0 { step := "publish", status := "in_progress", detail := some "p" } (initSSE 0)).progress = max (95 - 10) 0 :=
  ⟨rfl, (known_step_progress_weights (initSSE 0) 0 (some "p") none rfl).2.2.2.2.2.1⟩

/-- Claim C9: an event whose step identifier maps to no UI slot and no
progress weight leaves every step slot and the displayed progress
untouched (and, the handler being a total function, cannot crash). -/
theorem unknown_step_ignored (now : ℚ) (ev : SSEEvent) (st : SSEState)
    (h1 : stepMapping ev.step = none) (h2 : stepProgress ev.step = none) :
    (onMessage now ev st).stepSlots = st.stepSlots
      ∧ (onMessage now ev st).progress = st.progress := by
  by_cases hc : st.closed = true
  · rw [onMessage_closed _ _ _ hc]
    exact ⟨rfl, rfl⟩
  · have hcl : st.closed = false := by revert hc; cases st.closed <;> simp
    have hmsg : onMessage now ev st
        = applyPipeline now ev
            (applyDataMerge ev
              (applyPrdPreview ev
                (applyStatusText ev
                  (applyProgress ev (applyStepSlot ev st))))) := by
      unfold onMessage
      rw [hcl]
      simp
    constructor
    · rw [hmsg, applyPipeline_stepSlots, (applyDataMerge_keeps _ _).2.2.2.2.2.1,
        applyPrdPreview_stepSlots, applyStatusText_stepSlots,
        applyProgress_stepSlots, applyStepSlot_unknown _ _ h1]
    · rw [onMessage_progress _ _ _ hcl]
      unfold displayedProgress
      rw [h2]
      rfl

/-- Claim C9 witness: the theorem instantiated at a backend-added step
identifier unknown to this client. -/
theorem unknown_step_ignored_witness :
    stepMapping "deploy" = none ∧ stepProgress "deploy" = none
      ∧ ((onMessage 0 { step := "deploy", status := "completed", detail := some "d" } (initSSE 0)).stepSlots = (initSSE 0).stepSlots
          ∧ (onMessage 0 { step := "deploy", status := "completed", detail := some "d" } (initSSE 0)).progress = (initSSE 0).progress) :=
  ⟨rfl, rfl,
    unknown_step_ignored 0
      { step := "deploy", status := "completed", detail := some "d" }
      (initSSE 0) rfl rfl⟩

/-- Claim C1 counterexample: in the streaming handler, a `generate_prd`
completed event with a non-empty PRD payload does not pause the run;
with no resume invoked in between, the very next `create_repo` event is
still processed as lifecycle advancement (its step slot turns completed
and the progress advances to 50), refuting the claim for streamed
runs. -/
theorem sse_handler_advances_past_prd_without_resume :
    (onMessage 3000
        { step := "generate_prd", status := "completed",
          detail := some "PRD generated",
          data := some { prd_markdown := some "# PRD" } }
        (initSSE 1000)).prdPreviewVisible = true
  ∧ (onMessage 4000
        { step := "create_repo", status := "completed",
          detail := some "Repository created",
          data := some { name := some "my-app",
                         url := some "https://github.com/u/my-app" } }
        (onMessage 3000
          { step := "generate_prd", status := "completed",
            detail := some "PRD generated",
            data := some { prd_markdown := some "# PRD" } }
          (initSSE 1000))).stepSlots
      = [("step-prd", "completed", "✓ PRD generated"),
         ("step-github", "completed", "✓ Repository created")]
  ∧ (onMessage 4000
        { step := "create_repo", status := "completed",
          detail := some "Repository created",
          data := some { name := some "my-app",
                         url := some "https://github.com/u/my-app" } }
        (onMessage 3000
          { step := "generate_prd", status := "completed",
            detail := some "PRD generated",
            data := some { prd_markdown := some "# PRD" } }
          (initSSE 1000))).progress = 50
  ∧ ¬ ((onMessage 4000
        { step := "create_repo", status := "completed",
          detail := some "Repository created",
          data := some { name := some "my-app",
                         url := some "https://github.com/u/my-app" } }
        (onMessage 3000
          { step := "generate_prd", status := "completed",
            detail := some "PRD generated",
            data := some { prd_markdown := some "# PRD" } }
          (initSSE 1000))).stepSlots
      = (onMessage 3000
          { step := "generate_prd", status := "completed",
            detail := some "PRD generated",
            data := some { prd_markdown := some "# PRD" } }
          (initSSE 1000)).stepSlots) := by
  refine ⟨rfl, rfl, rfl, ?_⟩
  decide

theorem tokenStep_no_create_repo (env : ApiEnv) (a : Bool) (s : Settings)
    (n : String) : NetCall.createRepo n ∉ (tokenStep env a s).2 := by
  unfold tokenStep
  split_ifs <;> simp

theorem resolveEnhanced_no_create_repo (env : ApiEnv) (a : Bool)
    (k : Option String) (i t : String) (n : String) :
    NetCall.createRepo n ∉ (resolveEnhanced env a k i t).2 := by
  unfold resolveEnhanced
  split_ifs <;> simp

theorem resolvePrd_no_create_repo (env : ApiEnv) (a : Bool)
    (k : Option String) (e : EnhancedIdea) (n : String) :
    NetCall.createRepo n ∉ (resolvePrd env a k e).2 := by
  unfold resolvePrd
  split_ifs <;> simp

/-- Claim C1 (amended): in the review-gate controller, phase 1
(`startRun`) always ends either rejected or paused for review — it
never issues a create-repo call and never appends to the history — and
the create-repo call is issued exactly by `continueAfterReview`, when
the backend is reachable and a GitHub token is configured.  In the SSE
streaming handler the claim fails: see the counterexample. -/
theorem reviewPath_pauses_and_defers_create_repo
    (ideaRaw techRaw : String) (settings0 : Settings) (env : ApiEnv)
    (now : ℚ) (indices : List ℕ) (now2 : ℚ) :
    (∀ n : String, NetCall.createRepo n
        ∉ (startRunReviewM ideaRaw techRaw settings0 env now).calls)
  ∧ ((startRunReviewM ideaRaw techRaw settings0 env now).history = [])
  ∧ ((startRunReviewM ideaRaw techRaw settings0 env now).run.isSome = true →
       (startRunReviewM ideaRaw techRaw settings0 env now).pausedForReview
         = true)
  ∧ (∀ (run : RunRecord) (e : EnhancedIdea) (p : PRD) (settings : Settings),
       (NetCall.createRepo (repoNameOf e.title)
           ∈ (continueAfterReviewM
               (some { run with enhancedIdea := some e, prd := some p })
               indices settings env now2).calls)
         ↔ (run.apiRunning.getD false && jsTruthyS settings.githubToken)
             = true) := by
  have hcont : ∀ (run : RunRecord) (e : EnhancedIdea) (p : PRD)
      (settings : Settings),
      (NetCall.createRepo (repoNameOf e.title)
          ∈ (continueAfterReviewM
              (some { run with enhancedIdea := some e, prd := some p })
              indices settings env now2).calls)
        ↔ (run.apiRunning.getD false && jsTruthyS settings.githubToken)
            = true := by
    intro run e p settings
    by_cases hc :
        (run.apiRunning.getD false && jsTruthyS settings.githubToken) = true
    · cases hrepo : env.repoResp <;>
        simp [continueAfterReviewM, repoStep, hc, hrepo]
    · have hc' : (run.apiRunning.getD false
          && jsTruthyS settings.githubToken) = false := by
        revert hc
        cases run.apiRunning.getD false && jsTruthyS settings.githubToken <;>
          simp
      simp [continueAfterReviewM, repoStep, hc']
  by_cases hempty : jsTrim ideaRaw = ""
  · refine ⟨?_, ?_, ?_, hcont⟩ <;> simp [startRunReviewM, hempty]
  · rcases husr : usernameStep env
        (tokenStep env env.apiRunning settings0).1 with _ | settings
    · refine ⟨?_, ?_, ?_, hcont⟩ <;>
        simp [startRunReviewM, hempty, husr, tokenStep_no_create_repo]
    · refine ⟨?_, ?_, ?_, hcont⟩ <;>
        simp [startRunReviewM, hempty, husr, tokenStep_no_create_repo,
          resolveEnhanced_no_create_repo, resolvePrd_no_create_repo]

/-- Claim C1 witness: the amended theorem instantiated at an offline
run with a valid username: phase 1 pauses with no create-repo call, and
resuming with a token while online is exactly what issues it. -/
theorem reviewPath_pauses_witness :
    ((startRunReviewM "A task tracker for my reading group." ""
        { githubUsername := "jacattac314" } { apiRunning := false } 0).run.isSome
      = true)
  ∧ (NetCall.createRepo "a-task-tracker-for-my-reading-group"
      ∉ (startRunReviewM "A task tracker for my reading group." ""
          { githubUsername := "jacattac314" } { apiRunning := false } 0).calls)
  ∧ ((startRunReviewM "A task tracker for my reading group." ""
        { githubUsername := "jacattac314" } { apiRunning := false } 0).pausedForReview
      = true) := by
  have hmain := reviewPath_pauses_and_defers_create_repo
    "A task tracker for my reading group." ""
    { githubUsername := "jacattac314" } { apiRunning := false } 0 [] 0
  exact ⟨rfl, hmain.1 "a-task-tracker-for-my-reading-group", hmain.2.2.1 rfl⟩

/-- Claim C5: `buildFallbackPRD` returns the fixed four-epic skeleton
with exactly 5 features, parameterized only by the enhanced idea title
and description (so it is deterministic, and being a total function it
cannot throw); a fully-offline legacy run therefore finishes with
`featuresCount = 5` and status success. -/
theorem fallback_prd_five_features_and_offline_success (e : EnhancedIdea) :
    countFeatures (buildFallbackPRD e).prd = 5
  ∧ ((buildFallbackPRD e).prd.epics.getD []).length = 4
  ∧ (∀ e' : EnhancedIdea, e.title = e'.title → e.description = e'.description →
       buildFallbackPRD e = buildFallbackPRD e')
  ∧ (∀ (ideaRaw techRaw : String) (settings : Settings) (env : ApiEnv)
       (now0 now1 : ℚ),
       env.apiRunning = false → jsTrim ideaRaw ≠ "" →
       isValidGitHubUsername settings.githubUsername = true →
       ((startRunLegacyM ideaRaw techRaw settings env now0 now1).run.map
           fun r => (r.featuresCount, r.status))
         = some (some 5, "success")) := by
  refine ⟨rfl, rfl, ?_, ?_⟩
  · intro e' h1 h2
    unfold buildFallbackPRD
    rw [h1, h2]
  · intro ideaRaw techRaw settings env now0 now1 hapi htrim husr
    have h5 : ∀ e0 : EnhancedIdea, countFeatures (buildFallbackPRD e0).prd = 5 :=
      fun _ => rfl
    simp [startRunLegacyM, tokenStep, usernameStep, resolveEnhanced, resolvePrd,
      repoStep, hapi, htrim, husr, h5, jsTruthyS]

/-- Claim C5 witness: the theorem instantiated at a concrete enhanced
idea and a concrete offline run. -/
theorem fallback_prd_five_features_witness :
    countFeatures
        (buildFallbackPRD (buildFallbackEnhancedIdea
          "A flashcard trainer with spaced repetition." "")).prd = 5
  ∧ (({ apiRunning := false } : ApiEnv).apiRunning = false
      ∧ jsTrim "A flashcard trainer with spaced repetition." ≠ ""
      ∧ isValidGitHubUsername "jacattac314" = true)
  ∧ ((startRunLegacyM "A flashcard trainer with spaced repetition." ""
        { githubUsername := "jacattac314" } { apiRunning := false } 0 4200).run.map
        fun r => (r.featuresCount, r.status)) = some (some 5, "success") := by
  have hmain := fallback_prd_five_features_and_offline_success
    (buildFallbackEnhancedIdea "A flashcard trainer with spaced repetition." "")
  exact ⟨hmain.1, ⟨rfl, by decide, by decide⟩,
    hmain.2.2.2 "A flashcard trainer with spaced repetition." ""
      { githubUsername := "jacattac314" } { apiRunning := false } 0 4200
      rfl (by decide) (by decide)⟩

/-- Claim C7: an idea that trims to the empty string is rejected by
every run entry point synchronously: the result carries no run, no
network call and no history append — the state is the default
rejection outcome. -/
theorem empty_idea_rejected_without_network_or_history
    (ideaRaw techRaw : String) (settings : Settings) (env : ApiEnv)
    (now0 now1 now : ℚ) (h : jsTrim ideaRaw = "") :
    startRunWithSSEM ideaRaw techRaw settings env now0 now1 = {}
  ∧ startRunReviewM ideaRaw techRaw settings env now = {}
  ∧ startRunLegacyM ideaRaw techRaw settings env now0 now1 = {} := by
  refine ⟨?_, ?_, ?_⟩ <;>
    simp [startRunWithSSEM, startRunReviewM, startRunLegacyM, h]

/-- Claim C7 witness: the theorem instantiated at the empty idea. -/
theorem empty_idea_rejected_witness :
    jsTrim "" = ""
      ∧ startRunWithSSEM "" "" {} {} 0 0 = {}
      ∧ startRunReviewM "" "" {} {} 0 = {}
      ∧ startRunLegacyM "" "" {} {} 0 0 = {} := by
  have hmain := empty_idea_rejected_without_network_or_history
    "" "" {} {} 0 0 0 rfl
  exact ⟨rfl, hmain.1, hmain.2.1, hmain.2.2⟩

/-- Claim C4: evaluation of `updateDashboard` at concrete histories.
With two records whose `elapsedTime` strings came from `toFixed(1)`,
the reduce concatenates strings (`0 + "10.0" + "20.0"` is
`"010.020.0"`), whose numeric value is `NaN` — the displayed average is
`NaN`, not the arithmetic mean 15; with zero records the average is 0
and with one record the single string still coerces to its number. -/
theorem dashboard_average_is_nan_with_two_runs :
    updateDashboardM
        [{ status := "success", elapsedTime := some "10.0",
           featuresCount := some 5 },
         { status := "success", elapsedTime := some "20.0",
           featuresCount := some 7 }]
      = { total := 2, successful := 2, avgTime := none, totalFeatures := 12 }
  ∧ updateDashboardM []
      = { total := 0, successful := 0, avgTime := some 0, totalFeatures := 0 }
  ∧ (updateDashboardM
        [{ status := "success", elapsedTime := some "12.5",
           featuresCount := some 5 }]).avgTime = some (25 / 2) := by
  refine ⟨by decide, by decide, ?_⟩
  have hsum : dashboardElapsedSum
      [{ status := "success", elapsedTime := some "12.5",
         featuresCount := some 5 }] = JVal.str "012.5" := by decide
  simp [updateDashboardM, hsum, jsDiv, jsToNumber, jsStringToNumber,
    jsTrimList, splitOnChar, natOfDigits, List.dropWhile]
  norm_num

end JD
